import Mathlib

/-!
Verification of the streak engine, check-in scheduler, AI recommendation
requester and heatmap bucketing of the ai-productivity application.

The definitions below are a shallow embedding of the TypeScript sources:
instants are modelled as integers (milliseconds of the local clock since a
fixed epoch), fallible stored data as an inductive type, and the stateful
handlers as explicit state-passing functions.
-/

namespace AIProductivity

/-- Milliseconds in one calendar day. -/
def msPerDay : Int := 86400000

/-- Embeds the JS idiom d.setHours(0,0,0,0): floor an instant of the local
clock to local midnight.  Int.emod is always nonnegative for a positive
modulus, so this is a true floor also for instants before the epoch. -/
def startOfDay (t : Int) : Int := t - t % msPerDay

/-- The profiles.last_check_in_date value as the dashboard client sees it:
absent models a NULL column (the JS guard treats it as no prior check-in),
invalid models a present but unparseable string (new Date gives an Invalid
Date whose getTime is NaN, so every equality comparison is false), and
valid t models a string parsing to the local instant t. -/
inductive StoredDate where
  | absent
  | invalid
  | valid (t : Int)
deriving DecidableEq, Repr

/-- Calendar day represented by a stored date, when it has one. -/
def StoredDate.dayOf : StoredDate → Option Int
  | StoredDate.valid t => some (startOfDay t)
  | _ => none

/-- The profile row fields used by the streak rule (migration part_010):
current_streak and longest_streak are INTEGER columns, last_check_in_date a
DATE column, timezone a TEXT column.  Streak values are modelled as Int as
in the database; nonnegativity is an invariant, not a typing fact. -/
structure Profile where
  current_streak : Int
  longest_streak : Int
  last_check_in_date : StoredDate
  timezone : String
deriving DecidableEq, Repr

/-- Profile created by the handle_new_user trigger: all columns take their
defaults, current_streak 0, longest_streak 0, last_check_in_date NULL,
timezone America/New_York. -/
def initialProfile : Profile :=
  { current_streak := 0
    longest_streak := 0
    last_check_in_date := StoredDate.absent
    timezone := "America/New_York" }

/-- The streak portion of handleCheckInSubmit (Dashboard.tsx lines 154-181):
given the submission instant now, decide whether a profiles update is
issued, and with which values.  none models the same-day no-op branch
(no write at all); some p2 models the update payload.  The code floors
now and the stored date with setHours(0,0,0,0), compares the floored
values, and on update persists new Date().toISOString(), i.e. the raw
instant now, as last_check_in_date. -/
def streakUpdate (now : Int) (p : Profile) : Option Profile :=
  let today := startOfDay now
  let yesterday := today - msPerDay
  match p.last_check_in_date with
  | StoredDate.valid t =>
    let last := startOfDay t
    if last = today then none
    else
      let newStreak : Int := if last = yesterday then p.current_streak + 1 else 1
      some { p with current_streak := newStreak
                    longest_streak := max p.longest_streak newStreak
                    last_check_in_date := StoredDate.valid now }
  | _ =>
    some { p with current_streak := 1
                  longest_streak := max p.longest_streak 1
                  last_check_in_date := StoredDate.valid now }

/-- The profile state after one check-in submission at instant now,
assuming the profiles update (when issued) succeeds. -/
def handleCheckInStreak (now : Int) (p : Profile) : Profile :=
  (streakUpdate now p).getD p

/-- A check_ins row as inserted by handleCheckInSubmit. -/
structure CheckIn where
  question : String
  response : String
  mood : Option String
  energy_level : Option Int
deriving DecidableEq, Repr

/-- The slice of the store that handleCheckInSubmit touches. -/
structure Store where
  checkIns : List CheckIn
  profile : Profile
deriving DecidableEq, Repr

/-- Full handleCheckInSubmit (Dashboard.tsx lines 143-182) with explicit
write outcomes: insertOk is whether the check_ins insert succeeds, updateOk
whether the profiles update succeeds.  Returns the new store together with
the list of user notifications shown; the handler shows none in any branch,
and in particular ignores the result of the profiles update. -/
def handleCheckInSubmit (now : Int) (c : CheckIn) (insertOk updateOk : Bool)
    (s : Store) : Store × List String :=
  if insertOk then
    let s1 : Store := { s with checkIns := s.checkIns ++ [c] }
    match streakUpdate now s1.profile with
    | none => (s1, [])
    | some p2 => (if updateOk then { s1 with profile := p2 } else s1, [])
  else (s, [])

/-- Streak invariant of the data model: both counters nonnegative and the
longest streak dominating the current one. -/
def StreakInv (p : Profile) : Prop :=
  0 ≤ p.current_streak ∧ 0 ≤ p.longest_streak ∧
    p.current_streak ≤ p.longest_streak

/-- One scheduling suggestion in the structured tool-call schema of the
task-recommendations edge function. -/
structure Recommendation where
  task_id : String
  task_title : String
  suggested_date : String
  suggested_time_slot : String
  reasoning : String
  confidence : String
deriving DecidableEq, Repr

/-- Parsed arguments of the suggest_task_schedule tool call. -/
structure RecsData where
  recommendations : List Recommendation
  general_insights : String
deriving DecidableEq, Repr

/-- The AI gateway response as the edge function observes it: the HTTP
status, and the tool-call content when the status is a success.  toolCall
is none when choices[0].message.tool_calls[0] is missing, some none when
the tool-call arguments are present but fail JSON.parse, and some (some d)
when they parse to d. -/
structure AIResponse where
  status : Nat
  toolCall : Option (Option RecsData)
deriving DecidableEq, Repr

/-- HTTP response of the edge function, reduced to the fields the client
reads: a success body, or a failure status with an error message. -/
inductive ServeResult where
  | success (data : RecsData)
  | failure (status : Nat) (msg : String)
deriving DecidableEq, Repr

/-- Error body for a 429 from the AI gateway. -/
def rateLimitMsg : String := "Rate limit exceeded. Please try again later."

/-- Error body for a 402 from the AI gateway. -/
def creditsMsg : String := "AI credits exhausted. Please add credits to continue."

/-- Message thrown when the AI response carries no tool call. -/
def noToolCallMsg : String := "No tool call in AI response"

/-- Response handling of the task-recommendations edge function
(useNotifications.ts trailing serve handler, lines 673 onward): a fetch
response is ok exactly when its status is between 200 and 299; a non-ok 429
or 402 is forwarded with the same status and a capacity or billing message,
any other non-ok status is thrown and caught as a 500 naming the status, a
missing tool call is thrown and caught as a 500, and arguments that fail
JSON.parse raise a SyntaxError caught as a 500 whose message parseErrMsg is
supplied by the JS engine. -/
def serveTaskRecommendations (parseErrMsg : String) (r : AIResponse) :
    ServeResult :=
  if 200 ≤ r.status ∧ r.status ≤ 299 then
    match r.toolCall with
    | some (some d) => ServeResult.success d
    | some none => ServeResult.failure 500 parseErrMsg
    | none => ServeResult.failure 500 noToolCallMsg
  else if r.status = 429 then ServeResult.failure 429 rateLimitMsg
  else if r.status = 402 then ServeResult.failure 402 creditsMsg
  else ServeResult.failure 500 ("AI API error: " ++ toString r.status)

/-- What the recommendations client does after the invoke settles. -/
inductive ClientOutcome where
  | reauth
  | errorToast (msg : String)
  | gotRecs
deriving DecidableEq, Repr

/-- getRecommendations of AIRecommendations.tsx (newer revision, lines
301-334): a 401 error signs the user out and navigates to the auth page; a
success stores the data; any other error shows a destructive toast with the
error message and leaves the stored recommendations unchanged. -/
def getRecommendations (res : ServeResult) (prev : Option RecsData) :
    Option RecsData × ClientOutcome :=
  match res with
  | ServeResult.success d => (some d, ClientOutcome.gotRecs)
  | ServeResult.failure 401 _ => (prev, ClientOutcome.reauth)
  | ServeResult.failure _ m => (prev, ClientOutcome.errorToast m)

/-- The recommendations panel renders content only when a recommendations
value is stored; with none the component returns null. -/
def panelRendersRecs (recs : Option RecsData) : Bool := recs.isSome

/-- A tasks row (migration part_010), with the columns the client reads
and writes. -/
structure Task where
  id : String
  user_id : String
  title : String
  description : Option String
  priority : String
  status : String
  due_date : Option String
  estimated_duration : Option Int
  category : String
  progress : Int
  completed_at : Option String
deriving DecidableEq, Repr

/-- Client-visible state touched by the recommendations feature: the stored
recommendations and the tasks table. -/
structure PanelState where
  recommendations : Option RecsData
  tasks : List Task
deriving DecidableEq, Repr

/-- Receiving a recommendations response only updates the stored
recommendations value; the handler issues no task write. -/
def receiveRecommendations (res : ServeResult) (s : PanelState) :
    PanelState × ClientOutcome :=
  let r := getRecommendations res s.recommendations
  ({ s with recommendations := r.1 }, r.2)

/-- scheduleTask of AIRecommendations.tsx (lines 337-362): a plain
update of the due_date column of the rows whose id equals the suggestion
task id (id is the primary key, so at most one row matches). -/
def scheduleTask (taskId suggestedDate : String) (ts : List Task) :
    List Task :=
  ts.map fun t =>
    if t.id = taskId then { t with due_date := some suggestedDate } else t

/-- Minutes in one day, for the scheduler model. -/
def minutesPerDay : Int := 1440

/-- Result of the next-check-in scheduler: the work-hours flag and the
suggested next check-in time in minutes of the local clock. -/
structure SchedulerResult where
  isWorkHours : Bool
  nextTime : Int
deriving DecidableEq, Repr

/-- Modelled from the spec: the useCheckInScheduler hook used by the
dashboard views is not among the repository sources, only its call sites
are.  Following section 4.2 of the specification, times are minutes of the
local day: outside the window from wStart (inclusive) to wEnd (exclusive)
the scheduler reports being off work hours and suggests the start of the
next day; inside it, the window is divided evenly into freq intervals and
the first interval boundary strictly after now is returned. -/
def nextCheckInTime (wStart wEnd freq now : Int) : SchedulerResult :=
  if now < wStart ∨ wEnd ≤ now then
    { isWorkHours := false, nextTime := wStart + minutesPerDay }
  else
    let interval := (wEnd - wStart) / freq
    { isWorkHours := true
      nextTime := wStart + interval * ((now - wStart) / interval + 1) }

/-- A cell of the heatmap grid: a leading pad cell (rendered transparent,
count -1 in the source) or a day cell with its completion count. -/
inductive Cell where
  | pad
  | day (count : Nat)
deriving DecidableEq, Repr

/-- Completion count of a day cell. -/
def Cell.dataCount : Cell → Option Nat
  | Cell.pad => none
  | Cell.day c => some c

/-- Loop body of getWeeks (Insights view, part_000 lines 98-121): w is the
weekday of the element about to be pushed (consecutive calendar days, so
it advances by one modulo seven), cur is the week under construction.  A
week is closed after pushing a Saturday (weekday 6) or the final element. -/
def getWeeksGo (w : Nat) (cur : List Cell) : List Nat → List (List Cell)
  | [] => []
  | [c] => [cur ++ [Cell.day c]]
  | c :: c2 :: rest =>
    if w = 6 then
      (cur ++ [Cell.day c]) :: getWeeksGo 0 [] (c2 :: rest)
    else
      getWeeksGo (w + 1) (cur ++ [Cell.day c]) (c2 :: rest)

/-- getWeeks: bucket the list of consecutive daily completion counts into
heatmap weeks, padding the first week so that its first data cell lands on
its weekday w0 (getDay of the first date). -/
def getWeeks (w0 : Fin 7) (counts : List Nat) : List (List Cell) :=
  match counts with
  | [] => []
  | c :: rest => getWeeksGo w0.val (List.replicate w0.val Cell.pad) (c :: rest)

/-- Reference chunking of a cell sequence into runs of seven, used to state
the shape of getWeeks. -/
def chunk7 (l : List Cell) : List (List Cell) :=
  if h : l = [] then [] else l.take 7 :: chunk7 (l.drop 7)
termination_by l.length
decreasing_by
  simp only [List.length_drop]
  have := List.length_pos.mpr h
  omega

/-- Concrete check-in used in counterexamples. -/
def cexCheckIn : CheckIn :=
  { question := "How are you feeling?"
    response := "fine"
    mood := none
    energy_level := none }

/-- Concrete store used in counterexamples. -/
def cexStore : Store := { checkIns := [], profile := initialProfile }

section StreakLemmas

/-- Same-day submissions leave the profile untouched. -/
lemma streakUpdate_sameDay (now : Int) (p : Profile) (t : Int)
    (hlast : p.last_check_in_date = StoredDate.valid t)
    (hday : startOfDay t = startOfDay now) :
    streakUpdate now p = none := by
  simp [streakUpdate, hlast, hday]

/-- Whenever an update is issued, the persisted last_check_in_date is the
raw submission instant. -/
lemma streakUpdate_persists_now (now : Int) (p : Profile) (q : Profile)
    (h : streakUpdate now p = some q) :
    q.last_check_in_date = StoredDate.valid now := by
  unfold streakUpdate at h
  cases hl : p.last_check_in_date with
  | valid t =>
    rw [hl] at h
    by_cases hd : startOfDay t = startOfDay now
    · simp [hd] at h
    · simp only [hd, if_false] at h
      cases h
      rfl
  | absent => rw [hl] at h; cases h; rfl
  | invalid => rw [hl] at h; cases h; rfl

/-- A no-op only happens on a valid stored date of the same calendar day. -/
lemma streakUpdate_none_iff (now : Int) (p : Profile) :
    streakUpdate now p = none ↔
      ∃ t, p.last_check_in_date = StoredDate.valid t ∧
        startOfDay t = startOfDay now := by
  unfold streakUpdate
  cases hl : p.last_check_in_date with
  | valid t =>
    by_cases hd : startOfDay t = startOfDay now
    · simp [hd]
    · simp [hd]
  | absent => simp
  | invalid => simp

/-- The no-op branch returns the profile unchanged. -/
lemma handleCheckInStreak_of_none (now : Int) (p : Profile)
    (h : streakUpdate now p = none) : handleCheckInStreak now p = p := by
  simp [handleCheckInStreak, h]

/-- The update branch returns the update payload. -/
lemma handleCheckInStreak_of_some (now : Int) (p : Profile) (q : Profile)
    (h : streakUpdate now p = some q) : handleCheckInStreak now p = q := by
  simp [handleCheckInStreak, h]

/-- A profile whose stored date falls on the calendar day of now is left
unchanged by a submission at now. -/
lemma handleCheckInStreak_sameDay (now : Int) (p : Profile) (t : Int)
    (hlast : p.last_check_in_date = StoredDate.valid t)
    (hday : startOfDay t = startOfDay now) :
    handleCheckInStreak now p = p :=
  handleCheckInStreak_of_none now p (streakUpdate_sameDay now p t hlast hday)

/-- Flooring is idempotent: startOfDay lands on a day boundary. -/
lemma startOfDay_startOfDay (t : Int) :
    startOfDay (startOfDay t) = startOfDay t := by
  unfold startOfDay
  have h0 : msPerDay * (t / msPerDay) + t % msPerDay = t :=
    Int.ediv_add_emod t msPerDay
  have h1 : t - t % msPerDay = msPerDay * (t / msPerDay) := by omega
  have h2 : msPerDay * (t / msPerDay) % msPerDay = 0 :=
    Int.mul_emod_right msPerDay (t / msPerDay)
  rw [h1, h2]
  omega

/-- Field content of a streak update: the new current streak is either a
reset to 1 or an increment of the old one, and the new longest streak is
the max of the old longest and the new current. -/
lemma streakUpdate_fields (now : Int) (p q : Profile)
    (h : streakUpdate now p = some q) :
    ∃ ns : Int, (ns = 1 ∨ ns = p.current_streak + 1) ∧
      q.current_streak = ns ∧ q.longest_streak = max p.longest_streak ns := by
  unfold streakUpdate at h
  cases hl : p.last_check_in_date with
  | valid t =>
    rw [hl] at h
    by_cases hd : startOfDay t = startOfDay now
    · simp [hd] at h
    · simp only [hd, if_false] at h
      by_cases hy : startOfDay t = startOfDay now - msPerDay
      · simp only [hy, if_true] at h
        cases h
        exact ⟨p.current_streak + 1, Or.inr rfl, rfl, rfl⟩
      · simp only [hy, if_false] at h
        cases h
        exact ⟨1, Or.inl rfl, rfl, rfl⟩
  | absent =>
    rw [hl] at h
    cases h
    exact ⟨1, Or.inl rfl, rfl, rfl⟩
  | invalid =>
    rw [hl] at h
    cases h
    exact ⟨1, Or.inl rfl, rfl, rfl⟩

/-- Explicit form of the update on a profile with a valid stored date. -/
lemma streakUpdate_valid (now t : Int) (p : Profile) :
    streakUpdate now { p with last_check_in_date := StoredDate.valid t }
      = if startOfDay t = startOfDay now then none
        else
          some { p with
            current_streak :=
              if startOfDay t = startOfDay now - msPerDay then
                p.current_streak + 1
              else 1
            longest_streak :=
              max p.longest_streak
                (if startOfDay t = startOfDay now - msPerDay then
                  p.current_streak + 1
                else 1)
            last_check_in_date := StoredDate.valid now } := rfl

end StreakLemmas

/-- Claim C1: a profile whose last_check_in_date already falls on the
calendar day of now is left unchanged by a submission at now, and running
the streak rule a second time with an instant of the same calendar day
changes none of current_streak, longest_streak, last_check_in_date. -/
theorem c1_sameDay_checkIn_idempotent :
    (∀ (now : Int) (p : Profile) (t : Int),
        p.last_check_in_date = StoredDate.valid t →
        startOfDay t = startOfDay now →
        handleCheckInStreak now p = p) ∧
    (∀ (now now2 : Int) (p : Profile),
        startOfDay now = startOfDay now2 →
        handleCheckInStreak now2 (handleCheckInStreak now p)
          = handleCheckInStreak now p) := by
  constructor
  · exact fun now p t hlast hday => handleCheckInStreak_sameDay now p t hlast hday
  · intro now now2 p hday
    cases hs : streakUpdate now p with
    | none =>
      rw [handleCheckInStreak_of_none now p hs]
      obtain ⟨t, hlast, ht⟩ := (streakUpdate_none_iff now p).mp hs
      exact handleCheckInStreak_sameDay now2 p t hlast (ht.trans hday)
    | some q =>
      rw [handleCheckInStreak_of_some now p q hs]
      exact handleCheckInStreak_sameDay now2 q now
        (streakUpdate_persists_now now p q hs) hday

/-- Witness for C1 at concrete instants of the same calendar day. -/
theorem c1_witness :
    handleCheckInStreak 1000
        { initialProfile with last_check_in_date := StoredDate.valid 500 }
      = { initialProfile with last_check_in_date := StoredDate.valid 500 } ∧
    handleCheckInStreak 7200000 (handleCheckInStreak 3600000 initialProfile)
      = handleCheckInStreak 3600000 initialProfile :=
  ⟨c1_sameDay_checkIn_idempotent.1 1000
      { initialProfile with last_check_in_date := StoredDate.valid 500 } 500
      rfl (by decide),
    c1_sameDay_checkIn_idempotent.2 3600000 7200000 initialProfile (by decide)⟩

/-- Claim C2: when the stored date falls on yesterday and the current
streak is n, a check-in today yields streak n + 1, longest streak
max(old longest, n + 1), and a stored date on the calendar day of now. -/
theorem c2_consecutive_day_increments :
    ∀ (now : Int) (p : Profile) (t : Int),
      p.last_check_in_date = StoredDate.valid t →
      startOfDay t = startOfDay now - msPerDay →
      (handleCheckInStreak now p).current_streak = p.current_streak + 1 ∧
      (handleCheckInStreak now p).longest_streak
        = max p.longest_streak (p.current_streak + 1) ∧
      (handleCheckInStreak now p).last_check_in_date.dayOf
        = some (startOfDay now) := by
  intro now p t hlast hday
  have hne : ¬ (startOfDay t = startOfDay now) := by
    rw [hday]
    intro hcon
    simp only [msPerDay] at hcon
    omega
  have hq : streakUpdate now p = some
      { p with
        current_streak := p.current_streak + 1
        longest_streak := max p.longest_streak (p.current_streak + 1)
        last_check_in_date := StoredDate.valid now } := by
    simp [streakUpdate, hlast, hne, hday, msPerDay]
  rw [handleCheckInStreak_of_some now p _ hq]
  exact ⟨rfl, rfl, rfl⟩

/-- Witness for C2: the specification scenario with streak 5 on day 10 and
a submission one hour into day 11. -/
theorem c2_witness :
    (handleCheckInStreak 954000000
        { current_streak := 5, longest_streak := 5
          last_check_in_date := StoredDate.valid 864000000
          timezone := "America/New_York" }).current_streak = 5 + 1 ∧
    (handleCheckInStreak 954000000
        { current_streak := 5, longest_streak := 5
          last_check_in_date := StoredDate.valid 864000000
          timezone := "America/New_York" }).longest_streak = max 5 (5 + 1) :=
  ⟨(c2_consecutive_day_increments 954000000 _ 864000000 rfl (by decide)).1,
    (c2_consecutive_day_increments 954000000 _ 864000000 rfl (by decide)).2.1⟩

/-- Claim C3: with an absent, unparseable, or at least two days old stored
date, one check-in yields a streak of 1 regardless of the old streak. -/
theorem c3_gap_resets_streak :
    ∀ (now : Int) (p : Profile),
      (p.last_check_in_date = StoredDate.absent ∨
        p.last_check_in_date = StoredDate.invalid ∨
        ∃ t, p.last_check_in_date = StoredDate.valid t ∧
          startOfDay t ≤ startOfDay now - 2 * msPerDay) →
      (handleCheckInStreak now p).current_streak = 1 := by
  intro now p h
  rcases h with h | h | ⟨t, hlast, hgap⟩
  · simp [handleCheckInStreak, streakUpdate, h]
  · simp [handleCheckInStreak, streakUpdate, h]
  · simp only [msPerDay] at hgap
    have h1 : ¬ (startOfDay t = startOfDay now) := by omega
    have h2 : ¬ (startOfDay t = startOfDay now - msPerDay) := by
      simp only [msPerDay]
      omega
    simp [handleCheckInStreak, streakUpdate, hlast, h1, h2]

/-- Witness for C3: the specification scenario with streak 5 on day 10 and
a submission on day 13, and a fresh profile with no stored date. -/
theorem c3_witness :
    (handleCheckInStreak 1123200000
        { current_streak := 5, longest_streak := 5
          last_check_in_date := StoredDate.valid 864000000
          timezone := "America/New_York" }).current_streak = 1 ∧
    (handleCheckInStreak 0 initialProfile).current_streak = 1 :=
  ⟨c3_gap_resets_streak 1123200000 _
      (Or.inr (Or.inr ⟨864000000, rfl, by decide⟩)),
    c3_gap_resets_streak 0 initialProfile (Or.inl rfl)⟩

/-- Claim C4: the invariant that both streak counters are nonnegative and
the longest streak dominates the current streak holds of the initial
profile and is preserved by every streak update. -/
theorem c4_longest_ge_current_invariant :
    StreakInv initialProfile ∧
    ∀ (now : Int) (p : Profile),
      StreakInv p → StreakInv (handleCheckInStreak now p) := by
  refine ⟨⟨le_refl 0, le_refl 0, le_refl 0⟩, ?_⟩
  intro now p hp
  obtain ⟨h1, h2, h3⟩ := hp
  cases hs : streakUpdate now p with
  | none =>
    rw [handleCheckInStreak_of_none now p hs]
    exact ⟨h1, h2, h3⟩
  | some q =>
    rw [handleCheckInStreak_of_some now p q hs]
    obtain ⟨ns, hns, hcur, hlong⟩ := streakUpdate_fields now p q hs
    refine ⟨?_, ?_, ?_⟩
    · rw [hcur]; rcases hns with h | h <;> omega
    · rw [hlong]; rcases hns with h | h <;> simp [le_max_iff] <;> omega
    · rw [hcur, hlong]; exact le_max_right _ _

/-- Witness for C4: the invariant after a first check-in of a fresh
profile. -/
theorem c4_witness : StreakInv (handleCheckInStreak 0 initialProfile) :=
  c4_longest_ge_current_invariant.2 0 initialProfile
    ⟨le_refl 0, le_refl 0, le_refl 0⟩

/-- Counterexample to claim C5: a check-in one hour into calendar day one
persists last_check_in_date = valid 90000000, the raw submission instant,
which differs from the normalized calendar date valid 86400000 that the
claim requires; the configured timezone is never consulted either. -/
theorem c5_counterexample_persists_instant :
    (handleCheckInStreak 90000000 initialProfile).last_check_in_date
        = StoredDate.valid 90000000 ∧
    startOfDay 90000000 = 86400000 ∧
    StoredDate.valid 90000000 ≠ StoredDate.valid 86400000 := by decide

/-- Claim C5 amended: the rule does compare calendar dates, in the sense
that the resulting streak counters depend only on the day-floored values of
the stored date and of now, and the configured timezone column is never
consulted (the update commutes with changing it); but the persisted
last_check_in_date is the raw instant of submission, not the normalized
calendar date. -/
theorem c5_amended_dates_compared_instant_persisted :
    (∀ (now now2 t t2 : Int) (p : Profile),
        startOfDay t = startOfDay t2 →
        startOfDay now = startOfDay now2 →
        (handleCheckInStreak now
            { p with last_check_in_date := StoredDate.valid t }).current_streak
          = (handleCheckInStreak now2
            { p with last_check_in_date := StoredDate.valid t2 }).current_streak ∧
        (handleCheckInStreak now
            { p with last_check_in_date := StoredDate.valid t }).longest_streak
          = (handleCheckInStreak now2
            { p with last_check_in_date := StoredDate.valid t2 }).longest_streak) ∧
    (∀ (now : Int) (p : Profile) (tz : String),
        streakUpdate now { p with timezone := tz }
          = (streakUpdate now p).map fun q => { q with timezone := tz }) ∧
    (∀ (now : Int) (p q : Profile),
        streakUpdate now p = some q →
        q.last_check_in_date = StoredDate.valid now) := by
  refine ⟨?_, ?_, streakUpdate_persists_now⟩
  · intro now now2 t t2 p h1 h2
    simp only [handleCheckInStreak, streakUpdate_valid, h1, h2]
    split_ifs <;> simp
  · intro now p tz
    cases hl : p.last_check_in_date with
    | valid t =>
      simp only [streakUpdate, hl]
      split_ifs <;> rfl
    | absent => simp [streakUpdate, hl]
    | invalid => simp [streakUpdate, hl]

/-- Witness for the amended C5: two stored instants of day zero and two
submission instants of day one produce the same streak counters. -/
theorem c5_witness :
    (handleCheckInStreak 90000000
        { initialProfile with last_check_in_date := StoredDate.valid 500 }).current_streak
      = (handleCheckInStreak 93600000
        { initialProfile with last_check_in_date := StoredDate.valid 600 }).current_streak ∧
    streakUpdate 90000000 initialProfile
      = some { current_streak := 1, longest_streak := 1
               last_check_in_date := StoredDate.valid 90000000
               timezone := "America/New_York" } ∧
    (handleCheckInStreak 90000000 initialProfile).last_check_in_date
      = StoredDate.valid 90000000 :=
  ⟨(c5_amended_dates_compared_instant_persisted.1 90000000 93600000 500 600
      initialProfile (by decide) (by decide)).1,
    by decide,
    c5_amended_dates_compared_instant_persisted.2.2 90000000 initialProfile _
      (by decide)⟩

/-- Counterexample to claim C6: with a streak update due and the profiles
write failing, the handler shows no notification at all (the update result
is discarded), contradicting the claim that the caller is notified of the
failure. -/
theorem c6_counterexample_no_failure_notice :
    (streakUpdate 0 cexStore.profile).isSome = true ∧
    (handleCheckInSubmit 0 cexCheckIn true false cexStore).2 = [] ∧
    (handleCheckInSubmit 0 cexCheckIn true false cexStore).1.profile
      = cexStore.profile := by decide

/-- Claim C6 amended: if the profiles write fails the streak fields are
left unchanged and the check-in record, written independently beforehand,
is not rolled back; but the caller receives no notification of the streak
write failure.  When the check-in insert itself fails, nothing happens at
all. -/
theorem c6_amended_failure_leaves_state :
    ∀ (now : Int) (c : CheckIn) (s : Store),
      (handleCheckInSubmit now c true false s).1.profile = s.profile ∧
      (handleCheckInSubmit now c true false s).1.checkIns
        = s.checkIns ++ [c] ∧
      (handleCheckInSubmit now c true false s).2 = [] ∧
      (handleCheckInSubmit now c false true s).1 = s := by
  intro now c s
  cases hs : streakUpdate now s.profile with
  | none => simp [handleCheckInSubmit, hs]
  | some q => simp [handleCheckInSubmit, hs]

/-- On any failure response the client keeps its stored recommendations. -/
lemma getRecommendations_failure_fst (st : Nat) (m : String)
    (prev : Option RecsData) :
    (getRecommendations (ServeResult.failure st m) prev).1 = prev := by
  unfold getRecommendations
  split <;> simp_all

/-- On any failure response the client outcome is not a success. -/
lemma getRecommendations_failure_ne (st : Nat) (m : String)
    (prev : Option RecsData) :
    (getRecommendations (ServeResult.failure st m) prev).2
      ≠ ClientOutcome.gotRecs := by
  unfold getRecommendations
  split <;> simp_all

/-- A non-2xx status or missing or unparseable tool call always yields a
failure response from the edge function. -/
lemma serveTaskRecommendations_failure (pm : String) (r : AIResponse)
    (h : ¬ (200 ≤ r.status ∧ r.status ≤ 299) ∨
      r.toolCall = none ∨ r.toolCall = some none) :
    ∃ st m, serveTaskRecommendations pm r = ServeResult.failure st m := by
  unfold serveTaskRecommendations
  by_cases hok : 200 ≤ r.status ∧ r.status ≤ 299
  · rcases h with h | h | h
    · exact absurd hok h
    · rw [if_pos hok, h]
      exact ⟨500, noToolCallMsg, rfl⟩
    · rw [if_pos hok, h]
      exact ⟨500, pm, rfl⟩
  · rw [if_neg hok]
    split_ifs
    · exact ⟨429, rateLimitMsg, rfl⟩
    · exact ⟨402, creditsMsg, rfl⟩
    · exact ⟨500, "AI API error: " ++ toString r.status, rfl⟩

/-- Claim C7: every non-2xx or malformed AI-endpoint response degrades to a
failure that leaves the stored recommendations unchanged, so the panel
renders nothing; a 401 makes the client sign out and re-authenticate, 429
and 402 are forwarded with the same status and a capacity or billing
message, and every other failure is surfaced as a generic 500 error. -/
theorem c7_ai_failures_degrade :
    (∀ (pm : String) (r : AIResponse) (prev : Option RecsData),
        (¬ (200 ≤ r.status ∧ r.status ≤ 299) ∨
          r.toolCall = none ∨ r.toolCall = some none) →
        ∃ st m, serveTaskRecommendations pm r = ServeResult.failure st m ∧
          (getRecommendations (ServeResult.failure st m) prev).1 = prev ∧
          (getRecommendations (ServeResult.failure st m) prev).2
            ≠ ClientOutcome.gotRecs ∧
          panelRendersRecs
            ((getRecommendations (ServeResult.failure st m) none).1)
            = false) ∧
    (∀ (m : String) (prev : Option RecsData),
        getRecommendations (ServeResult.failure 401 m) prev
          = (prev, ClientOutcome.reauth)) ∧
    (∀ (pm : String) (r : AIResponse), r.status = 429 →
        serveTaskRecommendations pm r
          = ServeResult.failure 429 rateLimitMsg) ∧
    (∀ (pm : String) (r : AIResponse), r.status = 402 →
        serveTaskRecommendations pm r
          = ServeResult.failure 402 creditsMsg) ∧
    (∀ (pm : String) (r : AIResponse),
        ¬ (200 ≤ r.status ∧ r.status ≤ 299) →
        r.status ≠ 429 → r.status ≠ 402 →
        serveTaskRecommendations pm r
          = ServeResult.failure 500 ("AI API error: " ++ toString r.status)) ∧
    (∀ (pm : String) (r : AIResponse),
        200 ≤ r.status ∧ r.status ≤ 299 → r.toolCall = none →
        serveTaskRecommendations pm r
          = ServeResult.failure 500 noToolCallMsg) ∧
    (∀ (pm : String) (r : AIResponse),
        200 ≤ r.status ∧ r.status ≤ 299 → r.toolCall = some none →
        serveTaskRecommendations pm r = ServeResult.failure 500 pm) := by
  refine ⟨?_, ?_, ?_, ?_, ?_, ?_, ?_⟩
  · intro pm r prev h
    obtain ⟨st, m, hf⟩ := serveTaskRecommendations_failure pm r h
    refine ⟨st, m, hf, getRecommendations_failure_fst st m prev,
      getRecommendations_failure_ne st m prev, ?_⟩
    rw [panelRendersRecs, getRecommendations_failure_fst st m none]
    rfl
  · intro m prev
    rfl
  · intro pm r h
    have hok : ¬ (200 ≤ r.status ∧ r.status ≤ 299) := by omega
    simp [serveTaskRecommendations, hok, h]
  · intro pm r h
    have hok : ¬ (200 ≤ r.status ∧ r.status ≤ 299) := by omega
    have h429 : ¬ (r.status = 429) := by omega
    simp [serveTaskRecommendations, hok, h429, h]
  · intro pm r hok h429 h402
    simp [serveTaskRecommendations, hok, h429, h402]
  · intro pm r hok h
    simp [serveTaskRecommendations, hok, h]
  · intro pm r hok h
    simp [serveTaskRecommendations, hok, h]

/-- Witness for C7 at concrete responses: a 429 from the gateway, a 401
seen by the client, and a 2xx with no tool call. -/
theorem c7_witness :
    serveTaskRecommendations "SyntaxError" { status := 429, toolCall := none }
      = ServeResult.failure 429 rateLimitMsg ∧
    getRecommendations (ServeResult.failure 401 "unauthorized") none
      = (none, ClientOutcome.reauth) ∧
    serveTaskRecommendations "SyntaxError" { status := 200, toolCall := none }
      = ServeResult.failure 500 noToolCallMsg :=
  ⟨c7_ai_failures_degrade.2.2.1 "SyntaxError"
      { status := 429, toolCall := none } rfl,
    c7_ai_failures_degrade.2.1 "unauthorized" none,
    c7_ai_failures_degrade.2.2.2.2.2.1 "SyntaxError"
      { status := 200, toolCall := none } (by decide) rfl⟩

/-- Claim C8: receiving a recommendations response never writes to the
tasks table, and accepting one suggestion rewrites exactly the due_date
column of the rows whose id matches the suggestion, leaving every other
column of those rows and every other row unchanged. -/
theorem c8_acceptance_updates_only_due_date :
    (∀ (res : ServeResult) (s : PanelState),
        ((receiveRecommendations res s).1).tasks = s.tasks) ∧
    (∀ (tid d : String) (ts : List Task),
        List.Forall₂
          (fun t u =>
            if t.id = tid then u = { t with due_date := some d } else u = t)
          ts (scheduleTask tid d ts)) := by
  constructor
  · intro res s
    rfl
  · intro tid d ts
    induction ts with
    | nil => exact List.Forall₂.nil
    | cons a l ih =>
      refine List.Forall₂.cons ?_ ih
      by_cases h : a.id = tid
      · simp [h]
      · simp [h]

/-- Inside the work window the scheduler returns the first interval
boundary after now. -/
lemma nextCheckInTime_inside (wStart wEnd freq now : Int)
    (h1 : wStart ≤ now) (h2 : now < wEnd) :
    nextCheckInTime wStart wEnd freq now
      = { isWorkHours := true
          nextTime := wStart + (wEnd - wStart) / freq *
            ((now - wStart) / ((wEnd - wStart) / freq) + 1) } := by
  have hcond : ¬ (now < wStart ∨ wEnd ≤ now) := by omega
  simp [nextCheckInTime, hcond]

/-- Claim C9 (scheduler modelled from the specification): outside the work
window the scheduler reports off hours and suggests the next day start;
inside it, it returns an evenly spaced boundary of the window strictly
after now and no later than the window end, and the returned time is
monotone in the current time. -/
theorem c9_scheduler_boundary_properties :
    (∀ (wStart wEnd freq now : Int), (now < wStart ∨ wEnd ≤ now) →
        nextCheckInTime wStart wEnd freq now
          = { isWorkHours := false, nextTime := wStart + minutesPerDay }) ∧
    (∀ (wStart wEnd freq now : Int), 0 < freq → freq ∣ (wEnd - wStart) →
        wStart ≤ now → now < wEnd →
        (nextCheckInTime wStart wEnd freq now).isWorkHours = true ∧
        now < (nextCheckInTime wStart wEnd freq now).nextTime ∧
        (nextCheckInTime wStart wEnd freq now).nextTime ≤ wEnd ∧
        ∃ k : Int, 0 ≤ k ∧ k ≤ freq ∧
          (nextCheckInTime wStart wEnd freq now).nextTime
            = wStart + k * ((wEnd - wStart) / freq)) ∧
    (∀ (wStart wEnd freq now now2 : Int), 0 < freq → freq ∣ (wEnd - wStart) →
        wStart ≤ now → now ≤ now2 → now2 < wEnd →
        (nextCheckInTime wStart wEnd freq now).nextTime
          ≤ (nextCheckInTime wStart wEnd freq now2).nextTime) := by
  refine ⟨?_, ?_, ?_⟩
  · intro wStart wEnd freq now h
    simp [nextCheckInTime, h]
  · intro wStart wEnd freq now hf hdvd h1 h2
    have hL : 0 < wEnd - wStart := by omega
    have hfL : freq ≤ wEnd - wStart := Int.le_of_dvd hL hdvd
    have hiv : 1 ≤ (wEnd - wStart) / freq := by
      rw [Int.le_ediv_iff_mul_le hf]
      omega
    have hivpos : 0 < (wEnd - wStart) / freq := by omega
    have hmul : freq * ((wEnd - wStart) / freq) = wEnd - wStart :=
      Int.mul_ediv_cancel' hdvd
    rw [nextCheckInTime_inside wStart wEnd freq now h1 h2]
    have hq0 : 0 ≤ (now - wStart) / ((wEnd - wStart) / freq) :=
      Int.ediv_nonneg (by omega) (by omega)
    have hstrict : now - wStart <
        ((now - wStart) / ((wEnd - wStart) / freq) + 1) *
          ((wEnd - wStart) / freq) :=
      Int.lt_ediv_add_one_mul_self (now - wStart) hivpos
    have hqf : (now - wStart) / ((wEnd - wStart) / freq) < freq := by
      rw [Int.ediv_lt_iff_lt_mul hivpos, hmul]
      omega
    refine ⟨rfl, ?_, ?_, ?_⟩
    · simp only [SchedulerResult.nextTime]
      rw [mul_comm] at hstrict
      linarith
    · have hle : ((now - wStart) / ((wEnd - wStart) / freq) + 1)
          ≤ freq := by omega
      have hmono : ((wEnd - wStart) / freq) *
            ((now - wStart) / ((wEnd - wStart) / freq) + 1)
          ≤ ((wEnd - wStart) / freq) * freq :=
        mul_le_mul_of_nonneg_left hle (by omega)
      have hfin : ((wEnd - wStart) / freq) * freq = wEnd - wStart := by
        rw [mul_comm]
        exact hmul
      simp only [SchedulerResult.nextTime]
      omega
    · exact ⟨(now - wStart) / ((wEnd - wStart) / freq) + 1, by omega,
        by omega, by rw [mul_comm]⟩
  · intro wStart wEnd freq now now2 hf hdvd h1 h12 h2
    have hL : 0 < wEnd - wStart := by omega
    have hfL : freq ≤ wEnd - wStart := Int.le_of_dvd hL hdvd
    have hiv : 1 ≤ (wEnd - wStart) / freq := by
      rw [Int.le_ediv_iff_mul_le hf]
      omega
    have hivpos : 0 < (wEnd - wStart) / freq := by omega
    rw [nextCheckInTime_inside wStart wEnd freq now h1 (by omega),
      nextCheckInTime_inside wStart wEnd freq now2 (by omega) h2]
    have hqle : (now - wStart) / ((wEnd - wStart) / freq)
        ≤ (now2 - wStart) / ((wEnd - wStart) / freq) :=
      Int.ediv_le_ediv hivpos (by omega)
    have := mul_le_mul_of_nonneg_left
      (by omega : (now - wStart) / ((wEnd - wStart) / freq) + 1
        ≤ (now2 - wStart) / ((wEnd - wStart) / freq) + 1)
      (by omega : (0 : Int) ≤ (wEnd - wStart) / freq)
    simp only [SchedulerResult.nextTime]
    omega

/-- Unfolding of chunk7 on a nonempty list. -/
lemma chunk7_cons (l : List Cell) (h : l ≠ []) :
    chunk7 l = l.take 7 :: chunk7 (l.drop 7) := by
  rw [chunk7, dif_neg h]

/-- chunk7 yields at least one chunk on a nonempty list. -/
lemma chunk7_ne_nil (l : List Cell) (h : l ≠ []) : chunk7 l ≠ [] := by
  rw [chunk7_cons l h]
  simp

/-- Concatenating the chunks gives back the original list. -/
lemma chunk7_flatten (l : List Cell) : (chunk7 l).flatten = l := by
  induction l using chunk7.induct with
  | case1 => simp [chunk7]
  | case2 l h ih =>
    rw [chunk7_cons l h, List.flatten_cons, ih, List.take_append_drop]

/-- chunk7 of a list of exactly seven elements followed by a remainder. -/
lemma chunk7_append7 (A B : List Cell) (hA : A.length = 7) :
    chunk7 (A ++ B) = A :: chunk7 B := by
  have hne : A ++ B ≠ [] := by
    intro hcon
    have := congrArg List.length hcon
    simp [hA] at this
  have ht : (A ++ B).take 7 = A := by rw [← hA, List.take_left]
  have hd : (A ++ B).drop 7 = B := by rw [← hA, List.drop_left]
  rw [chunk7_cons _ hne, ht, hd]

/-- Every chunk except possibly the last has exactly seven cells. -/
lemma chunk7_dropLast_length (l : List Cell) :
    ∀ wk ∈ (chunk7 l).dropLast, wk.length = 7 := by
  induction l using chunk7.induct with
  | case1 => simp [chunk7]
  | case2 l h ih =>
    rw [chunk7_cons l h]
    by_cases hd : l.drop 7 = []
    · rw [hd, show chunk7 [] = [] from by simp [chunk7]]
      simp
    · have hlen : 7 < l.length := by
        rcases Nat.lt_or_ge 7 l.length with h7 | h7
        · exact h7
        · exact absurd (List.drop_eq_nil_iff.mpr h7) hd
      rw [List.dropLast_cons_of_ne_nil (chunk7_ne_nil _ hd)]
      intro wk hwk
      rcases List.mem_cons.mp hwk with hwk | hwk
      · rw [hwk]
        simp only [List.length_take]
        omega
      · exact ih wk hwk

/-- The first i + 1 chunks of a chunking with at least i + 2 chunks hold
exactly 7 * (i + 1) cells, so chunk i ends at a position one short of a
multiple of seven. -/
lemma chunk7_take_flatten (l : List Cell) :
    ∀ i, i + 1 < (chunk7 l).length →
      (((chunk7 l).take (i + 1)).flatten).length = 7 * (i + 1) := by
  induction l using chunk7.induct with
  | case1 =>
    intro i hi
    simp [chunk7] at hi
  | case2 l h ih =>
    intro i hi
    rw [chunk7_cons l h] at hi ⊢
    have hde : l.drop 7 ≠ [] := by
      intro hcon
      rw [hcon, show chunk7 [] = [] from by simp [chunk7]] at hi
      simp at hi
    have hlen : 7 < l.length := by
      rcases Nat.lt_or_ge 7 l.length with h7 | h7
      · exact h7
      · exact absurd (List.drop_eq_nil_iff.mpr h7) hde
    have htake : (l.take 7).length = 7 := by
      simp only [List.length_take]
      omega
    cases i with
    | zero =>
      simp only [List.take_succ_cons, List.take_zero, List.flatten_cons,
        List.flatten_nil, List.append_nil]
      omega
    | succ j =>
      simp only [List.length_cons] at hi
      rw [List.take_succ_cons, List.flatten_cons, List.length_append, htake,
        ih j (by omega)]
      ring

/-- Pads carry no data. -/
lemma filterMap_dataCount_replicate (n : Nat) :
    List.filterMap Cell.dataCount (List.replicate n Cell.pad) = [] := by
  induction n with
  | zero => rfl
  | succ m ih => simp [List.replicate_succ, ih, Cell.dataCount]

/-- The loop of getWeeks is exactly a seven-chunking of the current week
followed by the remaining day cells. -/
lemma getWeeksGo_eq_chunk7 :
    ∀ (l : List Nat) (w : Nat) (cur : List Cell), l ≠ [] → w < 7 →
      cur.length = w →
      getWeeksGo w cur l = chunk7 (cur ++ l.map Cell.day) := by
  intro l
  induction l with
  | nil =>
    intro w cur h _ _
    exact absurd rfl h
  | cons c rest ih =>
    intro w cur _ hw hlen
    cases rest with
    | nil =>
      have h7 : (cur ++ [Cell.day c]).length ≤ 7 := by
        simp [hlen]
        omega
      have hne2 : cur ++ (c :: []).map Cell.day ≠ [] := by simp
      simp only [getWeeksGo]
      rw [chunk7_cons _ hne2]
      simp only [List.map_cons, List.map_nil]
      rw [List.take_of_length_le h7, List.drop_eq_nil_iff.mpr h7,
        show chunk7 [] = [] from by simp [chunk7]]
    | cons c2 rest2 =>
      simp only [getWeeksGo]
      by_cases hw6 : w = 6
      · rw [if_pos hw6, ih 0 [] (by simp) (by omega) rfl]
        have hA : (cur ++ [Cell.day c]).length = 7 := by simp [hlen, hw6]
        have hsplit : cur ++ (c :: c2 :: rest2).map Cell.day
            = (cur ++ [Cell.day c]) ++ (c2 :: rest2).map Cell.day := by simp
        rw [hsplit, chunk7_append7 _ _ hA]
        simp
      · rw [if_neg hw6,
          ih (w + 1) (cur ++ [Cell.day c]) (by simp) (by omega)
            (by simp [hlen])]
        congr 1
        simp

/-- getWeeks on a nonempty input is the seven-chunking of the padded cell
sequence. -/
lemma getWeeks_eq_chunk7 (w0 : Fin 7) (counts : List Nat)
    (h : counts ≠ []) :
    getWeeks w0 counts
      = chunk7 (List.replicate w0.val Cell.pad ++ counts.map Cell.day) := by
  cases counts with
  | nil => exact absurd rfl h
  | cons c rest =>
    exact getWeeksGo_eq_chunk7 (c :: rest) w0.val
      (List.replicate w0.val Cell.pad) (by simp) w0.isLt (by simp)

/-- Claim C10: the heatmap bucketing flattens back to the padded input
sequence (all pad cells sit at the front of the first week, in number equal
to the weekday of the first day), dropping the pads recovers the input
counts in order, every week except possibly the last has exactly seven
cells, and each non-final week ends at a global cell index one short of a
multiple of seven, i.e. on a Saturday column. -/
theorem c10_getWeeks_week_structure (w0 : Fin 7) (counts : List Nat) :
    ((getWeeks w0 counts).flatten
        = if counts = [] then []
          else List.replicate w0.val Cell.pad ++ counts.map Cell.day) ∧
    ((getWeeks w0 counts).flatten.filterMap Cell.dataCount = counts) ∧
    (∀ wk ∈ (getWeeks w0 counts).dropLast, wk.length = 7) ∧
    (∀ i, i + 1 < (getWeeks w0 counts).length →
        (((getWeeks w0 counts).take (i + 1)).flatten).length
          = 7 * (i + 1)) := by
  by_cases h : counts = []
  · subst h
    refine ⟨by simp [getWeeks], by simp [getWeeks], by simp [getWeeks], ?_⟩
    intro i hi
    simp [getWeeks] at hi
  · rw [getWeeks_eq_chunk7 w0 counts h]
    refine ⟨?_, ?_, chunk7_dropLast_length _, chunk7_take_flatten _⟩
    · rw [if_neg h, chunk7_flatten]
    · rw [chunk7_flatten, List.filterMap_append, filterMap_dataCount_replicate,
        List.filterMap_map,
        show Cell.dataCount ∘ Cell.day = some from rfl]
      simp [List.filterMap_some]

/-- Witness for C10 on a concrete run starting on a Tuesday: the first of
the two produced weeks has seven cells, and it ends at global index six. -/
theorem c10_witness :
    ([Cell.pad, Cell.pad, Cell.day 1, Cell.day 2, Cell.day 3, Cell.day 4,
        Cell.day 5].length = 7) ∧
    (((getWeeks ⟨2, by decide⟩ [1, 2, 3, 4, 5, 6, 7, 8]).take 1).flatten.length
      = 7 * 1) :=
  ⟨(c10_getWeeks_week_structure ⟨2, by decide⟩ [1, 2, 3, 4, 5, 6, 7, 8]).2.2.1
      [Cell.pad, Cell.pad, Cell.day 1, Cell.day 2, Cell.day 3, Cell.day 4,
        Cell.day 5] (by decide),
    (c10_getWeeks_week_structure ⟨2, by decide⟩ [1, 2, 3, 4, 5, 6, 7, 8]).2.2.2
      0 (by decide)⟩

/-- Witness for C9: the specification scenario with work hours 09:00 to
17:00 in minutes, frequency 4, and a current time of 10:30 inside the
window, plus an off-hours time of 01:40. -/
theorem c9_witness :
    nextCheckInTime 540 1020 4 100
      = { isWorkHours := false, nextTime := 540 + minutesPerDay } ∧
    (nextCheckInTime 540 1020 4 630).isWorkHours = true ∧
    (630 : Int) < (nextCheckInTime 540 1020 4 630).nextTime ∧
    (nextCheckInTime 540 1020 4 630).nextTime ≤ 1020 :=
  ⟨c9_scheduler_boundary_properties.1 540 1020 4 100 (Or.inl (by decide)),
    (c9_scheduler_boundary_properties.2.1 540 1020 4 630 (by decide)
      ⟨120, by decide⟩ (by decide) (by decide)).1,
    (c9_scheduler_boundary_properties.2.1 540 1020 4 630 (by decide)
      ⟨120, by decide⟩ (by decide) (by decide)).2.1,
    (c9_scheduler_boundary_properties.2.1 540 1020 4 630 (by decide)
      ⟨120, by decide⟩ (by decide) (by decide)).2.2.1⟩

end AIProductivity
